import Mathlib

/-!
Verification of the number-guessing program in
`src/guessing_game/src/main.rs` against its specification.

The program is shallowly embedded: one Lean function per step of the
Rust `main` loop, with standard input modelled as a list of
`read_line` results and standard output as a list of messages.
-/

namespace GuessingGame

/-- Messages the program can print, one constructor per `println!` site
in `main.rs`.  `Msg.text` below records the exact wording. -/
inductive Msg where
  | prompt
  | readFail
  | parseErr
  | guessed (n : Nat)
  | tooSmall
  | tooBig
  | win
  deriving DecidableEq

/-- Exact wording of each message in `main.rs`. -/
def Msg.text : Msg → String
  | .prompt => "Please input your guess, between 1 and 100."
  | .readFail => "Failed to read line"
  | .parseErr => "Please enter a number"
  | .guessed n => "You guessed: " ++ toString n
  | .tooSmall => "Too small!"
  | .tooBig => "Too big!"
  | .win => "You win!"

/-- Result of one `read_line` call on standard input: either the line
that was appended to the buffer (`ok`), or an I/O error (`err`).  A
trailing newline in the buffer is irrelevant because the program trims
the string before parsing, so `ok` carries the line without it. -/
inductive ReadResult where
  | ok (line : String)
  | err
  deriving DecidableEq

/-- Rust `char::is_whitespace`: the Unicode White_Space property. -/
def isWhitespace (c : Char) : Bool :=
  (0x09 ≤ c.val && c.val ≤ 0x0D) || c.val = 0x20 || c.val = 0x85 ||
  c.val = 0xA0 || c.val = 0x1680 || (0x2000 ≤ c.val && c.val ≤ 0x200A) ||
  c.val = 0x2028 || c.val = 0x2029 || c.val = 0x202F || c.val = 0x205F ||
  c.val = 0x3000

/-- Rust `str::trim`: remove leading and trailing whitespace. -/
def trim (cs : List Char) : List Char :=
  ((cs.dropWhile isWhitespace).reverse.dropWhile isWhitespace).reverse

/-- ASCII decimal digit test, as in the integer parsing of Rust. -/
def isDigit (c : Char) : Bool := '0' ≤ c && c ≤ '9'

/-- Numeric value of an ASCII digit. -/
def digitVal (c : Char) : Nat := c.toNat - '0'.toNat

/-- The digit-accumulation loop of Rust `u32::from_str`: multiply the
accumulator by 10 and add each digit, failing on a non-digit character
or when the value would exceed the largest 32-bit value (checked
arithmetic). -/
def parseDigitsLoop : List Char → Nat → Option Nat
  | [], acc => some acc
  | c :: cs, acc =>
    if isDigit c then
      let acc := acc * 10 + digitVal c
      if acc < 2 ^ 32 then parseDigitsLoop cs acc else none
    else none

/-- Rust `guess.trim().parse::<u32>()` applied to a character list: the
empty string is rejected; a leading plus sign is allowed (but rejected
when alone); a leading minus sign is not stripped for an unsigned
target type, so it fails the digit loop; otherwise the digit loop runs
from 0. -/
def parseU32 (cs : List Char) : Option Nat :=
  match cs with
  | [] => none
  | c :: rest =>
    if c = '+' then
      if rest = [] then none else parseDigitsLoop rest 0
    else
      parseDigitsLoop (c :: rest) 0

/-- Mathematical value of a digit string (no overflow check), used to
state what `parseU32` returns. -/
def digitsVal (ds : List Char) : Nat :=
  ds.foldl (fun acc c => acc * 10 + digitVal c) 0

/-- State of the game loop: the secret number (immutable in `main.rs`,
bound once by `let secret_number = ...`) and the input not yet read. -/
structure LoopState where
  secret : Nat
  pending : List ReadResult
  deriving DecidableEq

/-- One `read_line` call against the pending input.  When the input is
exhausted (end-of-input), `read_line` returns `Ok(0)` and leaves the
freshly created buffer empty, so the program sees the empty line. -/
def readLine : List ReadResult → ReadResult × List ReadResult
  | [] => (.ok (""), [])
  | r :: rest => (r, rest)

/-- What one loop iteration leads to: `panicked` when the `expect` on
the read result fired, `retry` when the loop continues (parse error,
too small, or too big), `won` on `break`. -/
inductive IterResult where
  | panicked
  | retry
  | won
  deriving DecidableEq

/-- One iteration of the `loop` in `main.rs` (lines 39-154): print the
prompt, read a line (panicking on a read error), parse it as `u32`
(printing an error and continuing on failure), echo the guess and
compare it with the secret, printing the verdict and breaking on
equality. -/
def stepIter (st : LoopState) : List Msg × IterResult × LoopState :=
  match readLine st.pending with
  | (.err, rest) =>
    ([.prompt, .readFail], .panicked, ⟨st.secret, rest⟩)
  | (.ok line, rest) =>
    match parseU32 (trim line.data) with
    | none => ([.prompt, .parseErr], .retry, ⟨st.secret, rest⟩)
    | some g =>
      if g < st.secret then
        ([.prompt, .guessed g, .tooSmall], .retry, ⟨st.secret, rest⟩)
      else if g > st.secret then
        ([.prompt, .guessed g, .tooBig], .retry, ⟨st.secret, rest⟩)
      else
        ([.prompt, .guessed g, .win], .won, ⟨st.secret, rest⟩)

/-- Status of a run after finitely many iterations: still `running`
(the fuel-bounded observation has not seen the loop end), `panicked`
on a read error, or `won`. -/
inductive Outcome where
  | running
  | panicked
  | won
  deriving DecidableEq

/-- Fuel-bounded execution of the `loop`: iterate `stepIter` at most
`fuel` times, accumulating output, stopping early on panic or win. -/
def runLoop : Nat → LoopState → List Msg × Outcome × LoopState
  | 0, st => ([], .running, st)
  | fuel + 1, st =>
    match stepIter st with
    | (msgs, .panicked, st') => (msgs, .panicked, st')
    | (msgs, .won, st') => (msgs, .won, st')
    | (msgs, .retry, st') =>
      let (msgs', o, st'') := runLoop fuel st'
      (msgs ++ msgs', o, st'')

/-- The run from a given state terminates (by panic or win) after some
finite number of iterations. -/
def Terminates (st : LoopState) : Prop :=
  ∃ n, (runLoop n st).2.1 ≠ .running

/-- Big-step semantics of a terminating run of the `loop` in
`main.rs`: `Runs s inputs out o` relates the secret `s` and the input
events to the full output transcript and final outcome.  One
constructor per way an iteration can proceed. -/
inductive Runs : Nat → List ReadResult → List Msg → Outcome → Prop where
  | readErr (s : Nat) (rest : List ReadResult) :
      Runs s (.err :: rest) [.prompt, .readFail] .panicked
  | parseFail (s : Nat) (l : String) (rest : List ReadResult)
      (out : List Msg) (o : Outcome) :
      parseU32 (trim l.data) = none → Runs s rest out o →
      Runs s (.ok l :: rest) (.prompt :: .parseErr :: out) o
  | less (s : Nat) (l : String) (g : Nat) (rest : List ReadResult)
      (out : List Msg) (o : Outcome) :
      parseU32 (trim l.data) = some g → g < s → Runs s rest out o →
      Runs s (.ok l :: rest) (.prompt :: .guessed g :: .tooSmall :: out) o
  | greater (s : Nat) (l : String) (g : Nat) (rest : List ReadResult)
      (out : List Msg) (o : Outcome) :
      parseU32 (trim l.data) = some g → g > s → Runs s rest out o →
      Runs s (.ok l :: rest) (.prompt :: .guessed g :: .tooBig :: out) o
  | equal (s : Nat) (l : String) (g : Nat) (rest : List ReadResult) :
      parseU32 (trim l.data) = some g → g = s →
      Runs s (.ok l :: rest) [.prompt, .guessed g, .win] .won

/-- Modelled from the spec: the rand crate implementing the call
`rand::thread_rng().gen_range(low, high)` is not part of the
repository sources.  Per its contract and the words of the spec
(chosen once, uniformly at random, inclusive of both bounds), the call
draws uniformly from the half-open range from `low` (included) to
`high` (excluded); we model it as `low + r % (high - low)` for a
uniformly random natural `r`. -/
def gen_range (low high r : Nat) : Nat := low + r % (high - low)

/-- The draw at line 30 of `main.rs`:
`rand::thread_rng().gen_range(1, 101)`. -/
def secret_number (r : Nat) : Nat := gen_range 1 101 r

/-! ## Helper lemmas about parsing -/

lemma foldl_digit_le (ds : List Char) (acc : Nat) :
    acc ≤ ds.foldl (fun a c => a * 10 + digitVal c) acc := by
  induction ds generalizing acc with
  | nil => exact Nat.le_refl _
  | cons c cs ih =>
    simp only [List.foldl_cons]
    have := ih (acc * 10 + digitVal c)
    omega

lemma parseDigitsLoop_eq_some (ds : List Char) (acc : Nat)
    (hd : ∀ c ∈ ds, isDigit c = true)
    (hlt : ds.foldl (fun a c => a * 10 + digitVal c) acc < 2 ^ 32) :
    parseDigitsLoop ds acc = some (ds.foldl (fun a c => a * 10 + digitVal c) acc) := by
  induction ds generalizing acc with
  | nil => rfl
  | cons c cs ih =>
    have hc : isDigit c = true := hd c (List.mem_cons_self c cs)
    simp only [List.foldl_cons] at hlt ⊢
    have hacc : acc * 10 + digitVal c < 2 ^ 32 :=
      Nat.lt_of_le_of_lt (foldl_digit_le cs _) hlt
    simp only [parseDigitsLoop, hc, if_true, hacc]
    exact ih _ (fun x hx => hd x (List.mem_cons_of_mem c hx)) hlt

lemma parseDigitsLoop_some_inv (ds : List Char) (acc v : Nat)
    (h : parseDigitsLoop ds acc = some v) :
    v = ds.foldl (fun a c => a * 10 + digitVal c) acc ∧ (ds = [] ∨ v < 2 ^ 32) := by
  induction ds generalizing acc with
  | nil =>
    simp only [parseDigitsLoop, Option.some.injEq] at h
    exact ⟨h.symm, Or.inl rfl⟩
  | cons c cs ih =>
    by_cases hc : isDigit c = true
    · simp only [parseDigitsLoop, hc, if_true] at h
      split at h
      · rename_i hlt
        obtain ⟨hv, hrest⟩ := ih _ h
        refine ⟨by simpa using hv, Or.inr ?_⟩
        rcases hrest with h0 | h1
        · subst h0; simp only [List.foldl_nil] at hv; omega
        · exact h1
      · exact absurd h (by simp)
    · simp [parseDigitsLoop, hc] at h

lemma parseDigitsLoop_none_of_big (ds : List Char) (acc : Nat)
    (hacc : acc < 2 ^ 32)
    (hbig : 2 ^ 32 ≤ ds.foldl (fun a c => a * 10 + digitVal c) acc) :
    parseDigitsLoop ds acc = none := by
  cases h : parseDigitsLoop ds acc with
  | none => rfl
  | some v =>
    obtain ⟨hv, hrest⟩ := parseDigitsLoop_some_inv ds acc v h
    rcases hrest with h0 | h1
    · subst h0
      simp only [List.foldl_nil] at hv hbig
      omega
    · omega

lemma isDigit_ne_plus {c : Char} (h : isDigit c = true) : ¬ c = '+' := by
  intro he
  subst he
  exact absurd h (by decide)

lemma parseU32_digits (ds : List Char) (hne : ds ≠ [])
    (hd : ∀ c ∈ ds, isDigit c = true) (hlt : digitsVal ds < 2 ^ 32) :
    parseU32 ds = some (digitsVal ds) := by
  cases ds with
  | nil => exact absurd rfl hne
  | cons c cs =>
    have hc : isDigit c = true := hd c (List.mem_cons_self c cs)
    simp only [parseU32, if_neg (isDigit_ne_plus hc)]
    exact parseDigitsLoop_eq_some _ _ hd hlt

lemma parseU32_neg (ds : List Char) : parseU32 ('-' :: ds) = none := by
  simp only [parseU32, if_neg (by decide : ¬ ('-' : Char) = '+')]
  simp [parseDigitsLoop, (by decide : isDigit '-' = false)]

lemma parseU32_overflow (ds : List Char)
    (hd : ∀ c ∈ ds, isDigit c = true) (hbig : 2 ^ 32 ≤ digitsVal ds) :
    parseU32 ds = none := by
  cases ds with
  | nil => rfl
  | cons c cs =>
    have hc : isDigit c = true := hd c (List.mem_cons_self c cs)
    simp only [parseU32, if_neg (isDigit_ne_plus hc)]
    exact parseDigitsLoop_none_of_big _ _ (by norm_num) hbig

/-! ## Helper lemmas about the loop -/

lemma stepIter_ok_parseFail (s : Nat) (line : String) (rest : List ReadResult)
    (hbad : parseU32 (trim line.data) = none) :
    stepIter ⟨s, .ok line :: rest⟩ = ([.prompt, .parseErr], .retry, ⟨s, rest⟩) := by
  simp [stepIter, readLine, hbad]

lemma stepIter_ok_parsed (s g : Nat) (line : String) (rest : List ReadResult)
    (hp : parseU32 (trim line.data) = some g) :
    stepIter ⟨s, .ok line :: rest⟩ =
      (if g < s then ([.prompt, .guessed g, .tooSmall], .retry, ⟨s, rest⟩)
       else if g > s then ([.prompt, .guessed g, .tooBig], .retry, ⟨s, rest⟩)
       else ([.prompt, .guessed g, .win], IterResult.won, ⟨s, rest⟩)) := by
  simp only [stepIter, readLine, hp]

lemma stepIter_err (s : Nat) (rest : List ReadResult) :
    stepIter ⟨s, .err :: rest⟩ = ([.prompt, .readFail], .panicked, ⟨s, rest⟩) := rfl

lemma stepIter_eof (s : Nat) :
    stepIter ⟨s, []⟩ = ([.prompt, .parseErr], .retry, ⟨s, []⟩) := rfl

lemma runLoop_succ_retry (n : Nat) (st st' : LoopState) (msgs : List Msg)
    (h : stepIter st = (msgs, .retry, st')) :
    runLoop (n + 1) st =
      (msgs ++ (runLoop n st').1, (runLoop n st').2.1, (runLoop n st').2.2) := by
  rcases hr : runLoop n st' with ⟨m, o, st2⟩
  simp only [runLoop, h, hr]

lemma runLoop_eof (n s : Nat) :
    runLoop n ⟨s, []⟩ =
      ((List.replicate n [Msg.prompt, Msg.parseErr]).flatten, .running, ⟨s, []⟩) := by
  induction n with
  | zero => rfl
  | succ n ih =>
    rw [runLoop_succ_retry n _ _ _ (stepIter_eof s), ih]
    simp [List.replicate_succ]

lemma stepIter_win_iff (st : LoopState) :
    (Msg.win ∈ (stepIter st).1 ↔ (stepIter st).2.1 = .won) ∧
    ((stepIter st).2.2).secret = st.secret := by
  obtain ⟨s, pending⟩ := st
  match pending with
  | [] => simp [stepIter_eof]
  | .err :: rest => simp [stepIter_err]
  | .ok line :: rest =>
    cases hp : parseU32 (trim line.data) with
    | none => simp [stepIter_ok_parseFail _ _ _ hp]
    | some g =>
      rw [stepIter_ok_parsed s g line rest hp]
      by_cases h1 : g < s
      · simp [h1]
      · by_cases h2 : g > s
        · simp [h1, h2]
        · simp [h1, h2]

lemma runLoop_secret (n : Nat) (st : LoopState) :
    ((runLoop n st).2.2).secret = st.secret := by
  induction n generalizing st with
  | zero => rfl
  | succ n ih =>
    rcases h : stepIter st with ⟨msgs, r, st'⟩
    have hs : st'.secret = st.secret := by
      have := (stepIter_win_iff st).2
      rw [h] at this
      exact this
    cases r with
    | panicked => simp only [runLoop, h]; exact hs
    | won => simp only [runLoop, h]; exact hs
    | retry =>
      rw [runLoop_succ_retry n st st' msgs h]
      rw [ih st']
      exact hs

lemma runLoop_won_iff (n : Nat) (st : LoopState) :
    (runLoop n st).2.1 = .won ↔ Msg.win ∈ (runLoop n st).1 := by
  induction n generalizing st with
  | zero => simp [runLoop]
  | succ n ih =>
    rcases h : stepIter st with ⟨msgs, r, st'⟩
    have hw : Msg.win ∈ msgs ↔ r = .won := by
      have := (stepIter_win_iff st).1
      rw [h] at this
      exact this
    cases r with
    | panicked =>
      simp only [runLoop, h]
      simp at hw ⊢
      intro hmem
      exact hw hmem
    | won =>
      simp only [runLoop, h]
      simp at hw ⊢
      exact hw
    | retry =>
      rw [runLoop_succ_retry n st st' msgs h]
      simp only [List.mem_append]
      have hnot : ¬ Msg.win ∈ msgs := by
        rw [hw]
        simp
      rw [ih st']
      constructor
      · intro hwon
        exact Or.inr hwon
      · rintro (hm | hm)
        · exact absurd hm hnot
        · exact hm

lemma runLoop_malformed_running (n s : Nat) (lines : List ReadResult)
    (h : ∀ l ∈ lines, ∃ str, l = ReadResult.ok str ∧ parseU32 (trim str.data) = none) :
    (runLoop n ⟨s, lines⟩).2.1 = .running := by
  induction n generalizing lines with
  | zero => rfl
  | succ n ih =>
    cases lines with
    | nil =>
      rw [runLoop_succ_retry n _ _ _ (stepIter_eof s)]
      exact ih [] (by simp)
    | cons l ls =>
      obtain ⟨str, rfl, hbad⟩ := h l (List.mem_cons_self l ls)
      rw [runLoop_succ_retry n _ _ _ (stepIter_ok_parseFail s str ls hbad)]
      exact ih ls (fun x hx => h x (List.mem_cons_of_mem _ hx))

lemma runLoop_malformed_eq (s : Nat) (lines : List ReadResult)
    (h : ∀ l ∈ lines, ∃ str, l = ReadResult.ok str ∧ parseU32 (trim str.data) = none) :
    runLoop lines.length ⟨s, lines⟩ =
      ((lines.map fun _ => [Msg.prompt, Msg.parseErr]).flatten, .running, ⟨s, []⟩) := by
  induction lines with
  | nil => rfl
  | cons l ls ih =>
    obtain ⟨str, rfl, hbad⟩ := h _ (List.mem_cons_self _ ls)
    rw [List.length_cons, runLoop_succ_retry _ _ _ _ (stepIter_ok_parseFail s str ls hbad),
      ih (fun x hx => h x (List.mem_cons_of_mem _ hx))]
    simp

/-! ## The claims -/

/-- Claim C1 counterexample: the program has no range validator.  With
secret 50, the out-of-range input 150 reaches the comparison step: the
program echoes the guess and prints the comparison verdict (the
too-big message) and loops, instead of emitting a bound-violation
message and re-prompting without comparing.  No bound-violation
message even exists among the messages of `main.rs`. -/
theorem c1_counterexample :
    100 < 150 ∧
    stepIter ⟨50, [.ok ("150")]⟩ =
      ([.prompt, .guessed 150, .tooBig], .retry, ⟨50, []⟩) := by
  decide

/-- Claim C1 amended: out-of-range guesses are not rejected before the
comparison; the parsed guess is compared directly with the secret.
Since the secret lies in the inclusive range from 1 to 100, any guess
above 100 yields the too-big message and a retry, and the guess 0 (the
only representable value below 1) yields the too-small message and a
retry, so the program still re-prompts, but via the comparison. -/
theorem c1_amended (s g : Nat) (line : String) (rest : List ReadResult)
    (hs : 1 ≤ s ∧ s ≤ 100) (hp : parseU32 (trim line.data) = some g) :
    (100 < g →
       stepIter ⟨s, .ok line :: rest⟩ =
         ([.prompt, .guessed g, .tooBig], .retry, ⟨s, rest⟩)) ∧
    (g = 0 →
       stepIter ⟨s, .ok line :: rest⟩ =
         ([.prompt, .guessed g, .tooSmall], .retry, ⟨s, rest⟩)) := by
  rw [stepIter_ok_parsed s g line rest hp]
  constructor
  · intro hg
    rw [if_neg (by omega), if_pos (by omega)]
  · intro hg
    rw [if_pos (by omega)]

/-- Claim C1 amended, witnessed at secret 50 with the inputs 101 and 0. -/
theorem c1_witness :
    stepIter ⟨50, [.ok ("101")]⟩ =
      ([.prompt, .guessed 101, .tooBig], .retry, ⟨50, []⟩) ∧
    stepIter ⟨50, [.ok ("0")]⟩ =
      ([.prompt, .guessed 0, .tooSmall], .retry, ⟨50, []⟩) :=
  ⟨(c1_amended 50 101 ("101") [] (by decide) (by decide)).1 (by decide),
   (c1_amended 50 0 ("0") [] (by decide) (by decide)).2 rfl⟩

/-- Claim C2 counterexample: the trimmed line -5 is a valid base-10
signed integer, but parsing fails (the target type in `main.rs` is
`u32`, unsigned), and the program treats the line as malformed instead
of making -5 the guess. -/
theorem c2_counterexample :
    parseU32 (trim ("-5").data) = none ∧
    stepIter ⟨50, [.ok ("-5")]⟩ = ([.prompt, .parseErr], .retry, ⟨50, []⟩) := by
  decide

/-- Claim C2 amended: the reader trims surrounding whitespace and
parses the remainder as a base-10 unsigned 32-bit integer: every line
whose trimmed text is a nonempty digit string whose value fits in 32
bits parses to that value, and that value is echoed as the guess. -/
theorem c2_amended (line : String) (ds : List Char) (s : Nat) (rest : List ReadResult)
    (ht : trim line.data = ds) (hne : ds ≠ [])
    (hd : ∀ c ∈ ds, isDigit c = true) (hlt : digitsVal ds < 2 ^ 32) :
    parseU32 (trim line.data) = some (digitsVal ds) ∧
    (stepIter ⟨s, .ok line :: rest⟩).1.take 2 = [.prompt, .guessed (digitsVal ds)] := by
  have hp : parseU32 (trim line.data) = some (digitsVal ds) := by
    rw [ht]
    exact parseU32_digits ds hne hd hlt
  refine ⟨hp, ?_⟩
  rw [stepIter_ok_parsed s _ line rest hp]
  split
  · rfl
  · split
    · rfl
    · rfl

/-- Claim C2 amended, witnessed on a line with surrounding whitespace. -/
theorem c2_witness :
    parseU32 (trim ("  42  ").data) = some (digitsVal ['4', '2']) ∧
    (stepIter ⟨50, [.ok ("  42  ")]⟩).1.take 2 =
      [.prompt, .guessed (digitsVal ['4', '2'])] :=
  c2_amended ("  42  ") ['4', '2'] 50 [] (by decide) (by decide) (by decide) (by decide)

/-- Claim C3: for a parsed guess g and secret s, g < s prints the
too-small message and the loop continues, g > s prints the too-big
message and the loop continues, and g = s prints the win message and
the loop exits with the won outcome, whatever fuel and input remain. -/
theorem c3_compare (s g : Nat) (line : String) (rest : List ReadResult) (n : Nat)
    (hp : parseU32 (trim line.data) = some g) :
    (g < s → stepIter ⟨s, .ok line :: rest⟩ =
       ([.prompt, .guessed g, .tooSmall], .retry, ⟨s, rest⟩)) ∧
    (g > s → stepIter ⟨s, .ok line :: rest⟩ =
       ([.prompt, .guessed g, .tooBig], .retry, ⟨s, rest⟩)) ∧
    (g = s → runLoop (n + 1) ⟨s, .ok line :: rest⟩ =
       ([.prompt, .guessed g, .win], .won, ⟨s, rest⟩)) := by
  refine ⟨fun h1 => ?_, fun h2 => ?_, fun h3 => ?_⟩
  · rw [stepIter_ok_parsed s g line rest hp, if_pos h1]
  · rw [stepIter_ok_parsed s g line rest hp, if_neg (by omega), if_pos h2]
  · have hstep : stepIter ⟨s, .ok line :: rest⟩ =
        ([.prompt, .guessed g, .win], IterResult.won, ⟨s, rest⟩) := by
      rw [stepIter_ok_parsed s g line rest hp, if_neg (by omega), if_neg (by omega)]
    simp only [runLoop, hstep]

/-- Claim C3, witnessed at secret 7 with the guesses 3, 9 and 7. -/
theorem c3_witness :
    stepIter ⟨7, [.ok ("3")]⟩ = ([.prompt, .guessed 3, .tooSmall], .retry, ⟨7, []⟩) ∧
    stepIter ⟨7, [.ok ("9")]⟩ = ([.prompt, .guessed 9, .tooBig], .retry, ⟨7, []⟩) ∧
    runLoop 1 ⟨7, [.ok ("7")]⟩ = ([.prompt, .guessed 7, .win], .won, ⟨7, []⟩) :=
  ⟨(c3_compare 7 3 ("3") [] 0 (by decide)).1 (by decide),
   (c3_compare 7 9 ("9") [] 0 (by decide)).2.1 (by decide),
   (c3_compare 7 7 ("7") [] 0 (by decide)).2.2 rfl⟩

/-- Claim C4: every line that fails to parse produces exactly the
prompt and the parse-error message and another read; a run fed any
number of malformed lines never panics and never terminates, however
much fuel the observation allows. -/
theorem c4_malformed (s : Nat) (lines : List ReadResult)
    (h : ∀ l ∈ lines, ∃ str, l = ReadResult.ok str ∧ parseU32 (trim str.data) = none) :
    runLoop lines.length ⟨s, lines⟩ =
      ((lines.map fun _ => [Msg.prompt, Msg.parseErr]).flatten, .running, ⟨s, []⟩) ∧
    ∀ n, (runLoop n ⟨s, lines⟩).2.1 = .running :=
  ⟨runLoop_malformed_eq s lines h, fun n => runLoop_malformed_running n s lines h⟩

/-- Claim C4, witnessed on a non-numeric line followed by an empty line. -/
theorem c4_witness :
    runLoop 2 ⟨7, [.ok ("abc"), .ok ("")]⟩ =
      ([.prompt, .parseErr, .prompt, .parseErr], .running, ⟨7, []⟩) ∧
    (runLoop 5 ⟨7, [.ok ("abc"), .ok ("")]⟩).2.1 = .running := by
  have h := c4_malformed 7 [.ok ("abc"), .ok ("")] (by
    intro l hl
    rcases List.mem_cons.mp hl with rfl | hl2
    · exact ⟨"abc", rfl, by decide⟩
    · rcases List.mem_cons.mp hl2 with rfl | h3
      · exact ⟨"", rfl, by decide⟩
      · cases h3)
  refine ⟨?_, h.2 5⟩
  have h1 := h.1
  simpa using h1

/-- Claim C5 counterexample: at end-of-input (no pending input events)
`read_line` keeps succeeding with the empty line, which fails to
parse, so the run never terminates: there is no iteration count at
which the outcome differs from running.  The claim asserts that
end-of-input makes the process terminate with a non-zero status. -/
theorem c5_counterexample : ¬ Terminates ⟨50, []⟩ := by
  rintro ⟨n, hn⟩
  apply hn
  rw [runLoop_eof n 50]

/-- Claim C5 amended: an I/O error from `read_line` panics immediately
with the prompt and the diagnostic message, with no retry at that
level; and a run ends with the won outcome exactly when the win
message was printed, that is, after a correct guess.  End-of-input,
however, is not an I/O error in `main.rs` and loops forever (see the
counterexample). -/
theorem c5_amended :
    (∀ (s : Nat) (rest : List ReadResult) (n : Nat),
       runLoop (n + 1) ⟨s, .err :: rest⟩ =
         ([.prompt, .readFail], .panicked, ⟨s, rest⟩)) ∧
    (∀ (n : Nat) (st : LoopState),
       (runLoop n st).2.1 = .won ↔ Msg.win ∈ (runLoop n st).1) := by
  constructor
  · intro s rest n
    simp only [runLoop, stepIter_err]
  · exact runLoop_won_iff

/-- Claim C6: the secret number is never mutated: every iteration and
every fuel-bounded run leaves the secret component of the state
unchanged, so each comparison targets the value drawn before the first
prompt. -/
theorem c6_secret_invariant :
    (∀ st : LoopState, ((stepIter st).2.2).secret = st.secret) ∧
    (∀ (n : Nat) (st : LoopState), ((runLoop n st).2.2).secret = st.secret) :=
  ⟨fun st => (stepIter_win_iff st).2, runLoop_secret⟩

/-- Claim C7: the secret draw always lies between 1 and 100 inclusive;
every value between 1 and 100 is attainable; and over a full period of
the random source each value between 1 and 100 is hit by exactly one
seed, so the draw is uniform over the inclusive range with both bounds
attainable and no value outside it ever drawn. -/
theorem c7_uniform (r v : Nat) :
    (1 ≤ secret_number r ∧ secret_number r ≤ 100) ∧
    (1 ≤ v → v ≤ 100 →
      (∃ i, secret_number i = v) ∧
      (Finset.filter (fun i => secret_number i = v) (Finset.range 100)).card = 1) := by
  have hsn : ∀ i : Nat, secret_number i = 1 + i % 100 := fun i => rfl
  constructor
  · have := Nat.mod_lt r (show 0 < 100 by norm_num)
    rw [hsn r]
    omega
  · intro h1 h2
    constructor
    · exact ⟨v - 1, by rw [hsn, Nat.mod_eq_of_lt (by omega)]; omega⟩
    · rw [Finset.card_eq_one]
      refine ⟨v - 1, ?_⟩
      ext i
      simp only [Finset.mem_filter, Finset.mem_range, Finset.mem_singleton, hsn]
      constructor
      · rintro ⟨hi, he⟩
        rw [Nat.mod_eq_of_lt hi] at he
        omega
      · rintro rfl
        refine ⟨by omega, ?_⟩
        rw [Nat.mod_eq_of_lt (by omega)]
        omega

/-- Claim C7, witnessed at seed 3 and at the upper bound 100. -/
theorem c7_witness :
    (1 ≤ secret_number 3 ∧ secret_number 3 ≤ 100) ∧
    ((∃ i, secret_number i = 100) ∧
     (Finset.filter (fun i => secret_number i = 100) (Finset.range 100)).card = 1) :=
  ⟨(c7_uniform 3 100).1, (c7_uniform 3 100).2 (by norm_num) (by norm_num)⟩

/-- Claim C8: handling of an invalid line is idempotent: whatever
input follows, the iteration prints exactly the prompt and the
parse-error message and leaves the secret unchanged; feeding the same
invalid line n times yields the same two messages n times with the
secret intact and the run still going. -/
theorem c8_idempotent (s : Nat) (line : String)
    (hbad : parseU32 (trim line.data) = none) :
    (∀ rest, stepIter ⟨s, .ok line :: rest⟩ =
       ([.prompt, .parseErr], .retry, ⟨s, rest⟩)) ∧
    (∀ n, runLoop n ⟨s, List.replicate n (.ok line)⟩ =
       ((List.replicate n [Msg.prompt, Msg.parseErr]).flatten, .running, ⟨s, []⟩)) := by
  constructor
  · intro rest
    exact stepIter_ok_parseFail s line rest hbad
  · intro n
    induction n with
    | zero => rfl
    | succ n ih =>
      rw [List.replicate_succ,
        runLoop_succ_retry n _ _ _ (stepIter_ok_parseFail s line _ hbad), ih]
      simp [List.replicate_succ]

/-- Claim C8, witnessed on the non-numeric line abc repeated twice. -/
theorem c8_witness :
    stepIter ⟨7, [.ok ("abc")]⟩ = ([.prompt, .parseErr], .retry, ⟨7, []⟩) ∧
    runLoop 2 ⟨7, List.replicate 2 (.ok ("abc"))⟩ =
      ((List.replicate 2 [Msg.prompt, Msg.parseErr]).flatten, .running, ⟨7, []⟩) := by
  have h := c8_idempotent 7 ("abc") (by decide)
  exact ⟨h.1 [], h.2 2⟩

/-- Claim C9: guesses are parsed as unsigned 32-bit integers: a
trimmed line starting with a minus sign, and a digit string whose
value exceeds 4294967295, both fail to parse, and the program emits
the parse-error message and re-prompts instead of crashing or wrapping
the value. -/
theorem c9_u32_range (s : Nat) (line : String) (rest : List ReadResult) (ds : List Char) :
    (trim line.data = '-' :: ds →
       parseU32 (trim line.data) = none ∧
       stepIter ⟨s, .ok line :: rest⟩ = ([.prompt, .parseErr], .retry, ⟨s, rest⟩)) ∧
    (trim line.data = ds → (∀ c ∈ ds, isDigit c = true) → 4294967295 < digitsVal ds →
       parseU32 (trim line.data) = none ∧
       stepIter ⟨s, .ok line :: rest⟩ = ([.prompt, .parseErr], .retry, ⟨s, rest⟩)) := by
  constructor
  · intro ht
    have hbad : parseU32 (trim line.data) = none := by
      rw [ht]
      exact parseU32_neg ds
    exact ⟨hbad, stepIter_ok_parseFail s line rest hbad⟩
  · intro ht hd hbig
    have h32 : (2 : Nat) ^ 32 = 4294967296 := by norm_num
    have hbad : parseU32 (trim line.data) = none := by
      rw [ht]
      exact parseU32_overflow ds hd (by omega)
    exact ⟨hbad, stepIter_ok_parseFail s line rest hbad⟩

/-- Claim C9, witnessed on the line -5 and on the line 4294967296. -/
theorem c9_witness :
    (parseU32 (trim ("-5").data) = none ∧
     stepIter ⟨7, [.ok ("-5")]⟩ = ([.prompt, .parseErr], .retry, ⟨7, []⟩)) ∧
    (parseU32 (trim ("4294967296").data) = none ∧
     stepIter ⟨7, [.ok ("4294967296")]⟩ = ([.prompt, .parseErr], .retry, ⟨7, []⟩)) :=
  ⟨(c9_u32_range 7 ("-5") [] ['5']).1 (by decide),
   (c9_u32_range 7 ("4294967296") [] ("4294967296").data).2
     (by decide) (by decide) (by decide)⟩

/-- Claim C10: the program is deterministic given the random draw and
the input: two terminating runs over the same secret and the same
input events produce the same transcript and the same outcome. -/
theorem c10_deterministic (s : Nat) (ins : List ReadResult) (out₁ out₂ : List Msg)
    (o₁ o₂ : Outcome) (h₁ : Runs s ins out₁ o₁) (h₂ : Runs s ins out₂ o₂) :
    out₁ = out₂ ∧ o₁ = o₂ := by
  induction h₁ generalizing out₂ o₂ with
  | readErr rest =>
    cases h₂
    simp_all
  | parseFail l rest out o hp hrun ih =>
    cases h₂ <;> simp_all
    rename_i hr
    exact ih _ _ hr
  | less l g rest out o hp hg hrun ih =>
    cases h₂ <;> simp_all <;> try omega
    all_goals rename_i hr
    all_goals exact ih _ _ hr
  | greater l g rest out o hp hg hrun ih =>
    cases h₂ <;> simp_all <;> try omega
    all_goals rename_i hr
    all_goals exact ih _ _ hr
  | equal l g rest hp hg =>
    cases h₂ <;> simp_all

/-- Claim C10, witnessed on two identical derivations of the run with
secret 7 and the single input line 7. -/
theorem c10_witness :
    ([Msg.prompt, Msg.guessed 7, Msg.win] = [Msg.prompt, Msg.guessed 7, Msg.win]) ∧
    (Outcome.won = Outcome.won) := by
  have d : Runs 7 [.ok ("7")] [.prompt, .guessed 7, .win] .won :=
    Runs.equal 7 ("7") 7 [] (by decide) rfl
  exact c10_deterministic 7 [.ok ("7")] _ _ _ _ d d

end GuessingGame
